import Mathlib

/-!
Chat widget (`static/script.js`).

A shallow embedding of the browser script: the typing animation `typeWriter`
and the `submit` handler of the chat form, run on an explicit event loop.

Conventions of the embedding.

* A JavaScript string is the list of its UTF-16 code units, so that `length`,
  `charAt`, `trim` and `encodeURIComponent` act on what the engine acts on.
* A DOM element is a record of the properties the script assigns.  Its content
  is one cell: the text of its text node when it was written through
  `textContent` or holds character data, the markup as written when it was
  given markup through `innerHTML`.  The script reads `innerHTML` back in one
  place, `element.innerHTML += text.charAt(i)`, and there the round trip is
  followed: the getter escapes the text, the parser decodes it again, drops
  NUL and stores a carriage return as a line feed.  Layout (`scrollTop`,
  `scrollHeight`) is not part of the model.
* Elements live in a heap and are named by their index, because a reveal keeps
  writing to its element after the element has left the display area.
-/

namespace ChatWidget

/-! ## JavaScript strings -/

/-- A JavaScript string: its UTF-16 code units. -/
abbrev JSString := List Nat

/-- UTF-16 code units of one Unicode scalar value. -/
def utf16 (c : Nat) : List Nat :=
  if c < 0x10000 then [c]
  else [0xD800 + (c - 0x10000) / 0x400, 0xDC00 + (c - 0x10000) % 0x400]

/-- The JavaScript string written by a source literal. -/
def lit (s : String) : JSString :=
  s.toList.flatMap fun ch => utf16 ch.toNat

/-- White space and line terminators, the code units `String.prototype.trim` strips. -/
def isWhiteSpace (c : Nat) : Bool :=
  c = 0x09 || c = 0x0A || c = 0x0B || c = 0x0C || c = 0x0D || c = 0x20 || c = 0xA0
    || c = 0x1680 || (0x2000 ≤ c && c ≤ 0x200A) || c = 0x2028 || c = 0x2029
    || c = 0x202F || c = 0x205F || c = 0x3000 || c = 0xFEFF

/-- `String.prototype.trim`. -/
def trim (s : JSString) : JSString :=
  ((s.dropWhile isWhiteSpace).reverse.dropWhile isWhiteSpace).reverse

/-- Code units `encodeURIComponent` leaves as they are: ASCII letters, digits
and the marks `- _ . ! ~ * ( )` and the apostrophe. -/
def isUnreserved (c : Nat) : Bool :=
  (0x41 ≤ c && c ≤ 0x5A) || (0x61 ≤ c && c ≤ 0x7A) || (0x30 ≤ c && c ≤ 0x39)
    || c = 0x2D || c = 0x5F || c = 0x2E || c = 0x21 || c = 0x7E || c = 0x2A
    || c = 0x27 || c = 0x28 || c = 0x29

/-- One upper-case hexadecimal digit, as a code unit. -/
def hexDigit (d : Nat) : Nat :=
  if d < 10 then 0x30 + d else 0x41 + (d - 10)

/-- An octet escaped as `%XX`. -/
def percent (b : Nat) : JSString :=
  [0x25, hexDigit (b / 16), hexDigit (b % 16)]

/-- UTF-8 octets of a code point. -/
def utf8 (cp : Nat) : List Nat :=
  if cp < 0x80 then [cp]
  else if cp < 0x800 then [0xC0 + cp / 0x40, 0x80 + cp % 0x40]
  else if cp < 0x10000 then [0xE0 + cp / 0x1000, 0x80 + cp / 0x40 % 0x40, 0x80 + cp % 0x40]
  else [0xF0 + cp / 0x40000, 0x80 + cp / 0x1000 % 0x40, 0x80 + cp / 0x40 % 0x40,
        0x80 + cp % 0x40]

/-- A code point escaped octet by octet. -/
def escape (cp : Nat) : JSString :=
  (utf8 cp).flatMap percent

def isHighSurrogate (c : Nat) : Bool := 0xD800 ≤ c && c ≤ 0xDBFF

def isLowSurrogate (c : Nat) : Bool := 0xDC00 ≤ c && c ≤ 0xDFFF

/-- `encodeURIComponent`; `none` is the `URIError` thrown at an unpaired surrogate. -/
def encodeURIComponent : JSString → Option JSString
  | [] => some []
  | [c] =>
    if isUnreserved c then some [c]
    else if isHighSurrogate c || isLowSurrogate c then none
    else some (escape c)
  | c :: d :: rest =>
    if isUnreserved c then (encodeURIComponent (d :: rest)).map (c :: ·)
    else if isHighSurrogate c then
      if isLowSurrogate d then
        (encodeURIComponent rest).map
          (escape ((c - 0xD800) * 0x400 + (d - 0xDC00) + 0x10000) ++ ·)
      else none
    else if isLowSurrogate c then none
    else (encodeURIComponent (d :: rest)).map (escape c ++ ·)

/-! ## JSON values and the coercions the script applies to them -/

/-- The value `response.json()` resolves with.  A number is carried as an
integer: the script only tests a number for truthiness and compares a `length`
with the cursor. -/
inductive JSON where
  | null
  | bool (b : Bool)
  | num (n : Int)
  | str (s : JSString)
  | arr (items : List JSON)
  | obj (members : List (JSString × JSON))

/-- Own property `key` of a parsed object; of two members with one key the later wins. -/
def lookupMember (key : JSString) : List (JSString × JSON) → Option JSON
  | [] => none
  | (k, v) :: rest =>
    match lookupMember key rest with
    | some later => some later
    | none => if k = key then some v else none

/-- Reading `data.answer`.  The outer `none` is the `TypeError` thrown when
`data` is `null`; the inner `none` is `undefined`.  Booleans, numbers, strings
and arrays have no property of that name. -/
def getAnswer : JSON → Option (Option JSON)
  | .null => none
  | .obj members => some (lookupMember (lit "answer") members)
  | _ => some none

/-- `ToBoolean` of a property value (`none` is `undefined`). -/
def truthy : Option JSON → Bool
  | none => false
  | some .null => false
  | some (.bool b) => b
  | some (.num n) => n != 0
  | some (.str s) => !s.isEmpty
  | some (.arr _) => true
  | some (.obj _) => true

def fallbackText : JSString := lit "Sorry, I could not get a response."

def errorText : JSString := lit "❌ Error: Could not connect to server."

/-- The expression `data.answer || 'Sorry, I could not get a response.'`
for a `data.answer` already read. -/
def orFallback (v : Option JSON) : JSON :=
  match v with
  | some a => if truthy v then a else .str fallbackText
  | none => .str fallbackText

/-- `String.prototype.charAt`: the code unit at `i`, or the empty string. -/
def charAt (s : JSString) (i : Nat) : JSString :=
  match s[i]? with
  | some c => [c]
  | none => []

/-! ## The `innerHTML` round trip -/

/-- How the `innerHTML` getter writes one code unit of a text node: `&`, `<`,
`>` and the no-break space become `&amp;`, `&lt;`, `&gt;` and `&nbsp;`. -/
def escapeUnit (c : Nat) : JSString :=
  if c = 0x26 then [0x26, 0x61, 0x6D, 0x70, 0x3B]
  else if c = 0x3C then [0x26, 0x6C, 0x74, 0x3B]
  else if c = 0x3E then [0x26, 0x67, 0x74, 0x3B]
  else if c = 0xA0 then [0x26, 0x6E, 0x62, 0x73, 0x70, 0x3B]
  else [c]

/-- The `innerHTML` getter of an element whose only child is the text `t`. -/
def getInnerHTML (t : JSString) : JSString :=
  t.flatMap escapeUnit

/-- The states of the HTML tokenizer that character data goes through. -/
inductive Tokenizer where
  /-- The data state. -/
  | data
  /-- The data state right after a carriage return. -/
  | afterCR
  /-- After `&` and the units `seen` of a character reference. -/
  | reference (seen : JSString)
  /-- After `<`. -/
  | tagOpen

/-- The character a complete reference name stands for, among `amp;`, `lt;`,
`gt;` and `nbsp;`. -/
def decodeName (name : JSString) : Option Nat :=
  if name = [0x61, 0x6D, 0x70, 0x3B] then some 0x26
  else if name = [0x6C, 0x74, 0x3B] then some 0x3C
  else if name = [0x67, 0x74, 0x3B] then some 0x3E
  else if name = [0x6E, 0x62, 0x73, 0x70, 0x3B] then some 0xA0
  else none

/-- The proper beginnings of those four names. -/
def isNameStart (name : JSString) : Bool :=
  name ∈ [[0x61], [0x61, 0x6D], [0x61, 0x6D, 0x70], [0x6C], [0x6C, 0x74], [0x67], [0x67, 0x74],
    [0x6E], [0x6E, 0x62], [0x6E, 0x62, 0x73], [0x6E, 0x62, 0x73, 0x70]]

/-- The text the HTML parser stores for character data.  A line end written
CR LF or CR is stored as LF, NUL is dropped, one of the four references is
decoded, and an `&` or `<` at the very end stands for itself.  The result is
`none` outside the inputs followed here: at a `<` with anything after it (a
tag, a comment) and at an `&` that neither ends the input nor begins one of
the four references. -/
def scan : Tokenizer → JSString → Option JSString
  | .data, [] => some []
  | .afterCR, [] => some []
  | .reference seen, [] => if seen = [] then some [0x26] else none
  | .tagOpen, [] => some [0x3C]
  | .tagOpen, _ :: _ => none
  | .reference seen, c :: rest =>
    match decodeName (seen ++ [c]) with
    | some decoded => (scan .data rest).map (decoded :: ·)
    | none => if isNameStart (seen ++ [c]) then scan (.reference (seen ++ [c])) rest else none
  | .afterCR, c :: rest =>
    if c = 0x0A then scan .data rest
    else if c = 0x26 then scan (.reference []) rest
    else if c = 0x3C then scan .tagOpen rest
    else if c = 0x00 then scan .data rest
    else if c = 0x0D then (scan .afterCR rest).map (0x0A :: ·)
    else (scan .data rest).map (c :: ·)
  | .data, c :: rest =>
    if c = 0x26 then scan (.reference []) rest
    else if c = 0x3C then scan .tagOpen rest
    else if c = 0x00 then scan .data rest
    else if c = 0x0D then (scan .afterCR rest).map (0x0A :: ·)
    else (scan .data rest).map (c :: ·)

/-- The `innerHTML` setter: the cell holds the text the parser stored, or the
markup as written. -/
def setInnerHTML (html : JSString) : JSString :=
  match scan .data html with
  | some t => t
  | none => html

/-- What one code unit handed to `element.innerHTML +=` adds to the text. -/
def stored (c : Nat) : JSString :=
  if c = 0x00 then [] else if c = 0x0D then [0x0A] else [c]

/-- The text a reveal of `s` leaves, unit by unit. -/
def typed (s : JSString) : JSString :=
  s.flatMap stored

/-- No NUL and no carriage return. -/
def isClean (s : JSString) : Bool :=
  s.all fun c => c != 0x00 && c != 0x0D

/-- What one run of the body of `type` does. -/
inductive TypeResult where
  /-- The branch `i < text.length`: the new content of the element; the cursor
  advances and the next run is scheduled. -/
  | appended (content : JSString)
  /-- The other branch: `resolve()`. -/
  | resolved
  /-- A `TypeError` raised while evaluating the body. -/
  | threw

/-- The body of `type` for cursor `i`, text `text` and the text `content` the
element holds.  The statement `element.innerHTML += text.charAt(i)` reads the
property, appends and assigns the property again.

`cmp i v` stands for the comparison `i < v` of JavaScript when `v` is a string,
an array or an object (found as the `length` member of an object): that
coercion is left to the platform.

* a string: `length` counts code units and `charAt(i)` is the `i`-th of them;
* an array: `length` is the number of items, and `charAt` is not a function;
* a boolean or a number: `length` is `undefined`, the comparison is false;
* an object: `length` is its member of that name, if any, and `charAt` is a
  member, hence not a function, or `undefined`;
* `null`: reading `length` throws. -/
def typeBody (cmp : Nat → JSON → Bool) (text : JSON) (i : Nat) (content : JSString) :
    TypeResult :=
  match text with
  | .str s =>
    if i < s.length then .appended (setInnerHTML (getInnerHTML content ++ charAt s i))
    else .resolved
  | .arr items => if i < items.length then .threw else .resolved
  | .bool _ => .resolved
  | .num _ => .resolved
  | .null => .threw
  | .obj members =>
    match lookupMember (lit "length") members with
    | none => .resolved
    | some .null => .resolved
    | some (.bool b) => if i < b.toNat then .threw else .resolved
    | some (.num n) => if (i : Int) < n then .threw else .resolved
    | some v => if cmp i v then .threw else .resolved

/-! ## `typeWriter` on its own

One call of `typeWriter`, with the bookkeeping needed to count what it does.
The element is written by this call only. -/

/-- The element and the closure of one `typeWriter` call, with counters. -/
structure Reveal where
  /-- The `innerHTML` of the element. -/
  content : JSString
  /-- The cursor `i`. -/
  i : Nat
  /-- Delays of the callbacks scheduled by `setTimeout` and not run yet. -/
  pending : List Nat
  /-- Runs of `type` so far. -/
  runs : Nat
  /-- Executions of `element.innerHTML += text.charAt(i)`. -/
  appends : Nat
  /-- Calls of `setTimeout`. -/
  scheduled : Nat
  /-- Calls of `resolve`. -/
  resolves : Nat
  /-- The promise was rejected by an exception in the executor. -/
  rejected : Bool
deriving DecidableEq

namespace Reveal

/-- One run of `type`. -/
def type (cmp : Nat → JSON → Bool) (text : JSON) (speed : Nat) (r : Reveal) : Reveal :=
  match typeBody cmp text r.i r.content with
  | .appended c =>
    { r with content := c, i := r.i + 1, pending := r.pending ++ [speed],
             runs := r.runs + 1, appends := r.appends + 1, scheduled := r.scheduled + 1 }
  | .resolved => { r with runs := r.runs + 1, resolves := r.resolves + 1 }
  | .threw => { r with runs := r.runs + 1, rejected := true }

/-- An element holding `held`, before `typeWriter` is called on it. -/
def start (held : JSString) : Reveal :=
  { content := held, i := 0, pending := [], runs := 0, appends := 0, scheduled := 0,
    resolves := 0, rejected := false }

/-- The first two statements of `typeWriter`: `let i = 0` and
`element.innerHTML = ''`. -/
def cleared (r : Reveal) : Reveal :=
  { r with i := 0, content := [] }

/-- The call `typeWriter(element, text, speed)` on an element holding `held`,
up to its return. -/
def typeWriter (cmp : Nat → JSON → Bool) (held : JSString) (text : JSON) (speed : Nat) :
    Reveal :=
  type cmp text speed (cleared (start held))

/-- The event loop runs the oldest scheduled callback, if there is one. -/
def fire (cmp : Nat → JSON → Bool) (text : JSON) (speed : Nat) (r : Reveal) : Reveal :=
  match r.pending with
  | [] => r
  | _ :: rest => type cmp text speed { r with pending := rest }

/-- The state after the call and `n` further turns of the event loop. -/
def after (cmp : Nat → JSON → Bool) (held : JSString) (text : JSON) (speed : Nat) :
    Nat → Reveal
  | 0 => typeWriter cmp held text speed
  | n + 1 => fire cmp text speed (after cmp held text speed n)

end Reveal

/-- A comparison oracle for concrete runs; no run below consults it. -/
def neverLess : Nat → JSON → Bool := fun _ _ => false

/-! ## The widget -/

/-- A `div` created by the script, with the properties the script assigns. -/
structure Elem where
  className : JSString
  /-- The property `style.color`. -/
  color : JSString
  /-- The property `style.marginBottom`. -/
  marginBottom : JSString
  /-- What was assigned through `innerHTML` or `textContent`. -/
  content : JSString
deriving DecidableEq

/-- One call of `fetch`. -/
structure Request where
  url : JSString
  method : JSString
  headers : List (JSString × JSString)
  body : JSString
deriving DecidableEq

/-- A callback `type` scheduled by `setTimeout`, with the variables it closes over. -/
structure Timer where
  element : Nat
  text : JSON
  i : Nat
  delay : Nat

/-- The page as the script sees it, and the work the event loop still owes it. -/
structure Widget where
  /-- Every element created so far; an element is named by its index. -/
  heap : List Elem
  /-- The children of `chatBox`, first to last. -/
  chatBox : List Nat
  /-- The property `questionInput.value`. -/
  inputValue : JSString
  /-- The property `sendBtn.disabled`. -/
  btnDisabled : Bool
  /-- The property `sendBtn.textContent`. -/
  btnText : JSString
  /-- The property `typingIndicator.style.display`. -/
  indicatorDisplay : JSString
  /-- Every call of `fetch`, oldest first. -/
  sent : List Request
  /-- Requests not settled yet; a run of the handler waits on each. -/
  inFlight : List Request
  /-- Callbacks scheduled and not run yet; a run of the handler waits on each. -/
  timers : List Timer
  /-- Calls of `console.error`. -/
  consoleErrors : Nat

/-- How a request ends: `fetch` rejects, or it resolves with a response of some
status whose body `response.json()` parses (`some`) or rejects (`none`). -/
inductive Outcome where
  | rejected
  | response (status : Nat) (body : Option JSON)

def questionColor : JSString := lit "#667eea"

def errorColor : JSString := lit "#ff6b6b"

def answerClass : JSString := lit "answer-text"

/-- The `questionDiv` of step 1. -/
def questionDiv (question : JSString) : Elem :=
  { className := answerClass, color := questionColor, marginBottom := lit "20px",
    content := lit "<strong>Q:</strong> " ++ question }

/-- The `answerDiv` of step 4, as created. -/
def answerDiv : Elem :=
  { className := answerClass, color := [], marginBottom := [], content := [] }

/-- The `errorDiv` of step 5. -/
def errorDiv : Elem :=
  { className := answerClass, color := errorColor, marginBottom := [], content := errorText }

/-- The request of step 3 for an encoded question. -/
def request (encoded : JSString) : Request :=
  { url := lit "/", method := lit "POST",
    headers := [(lit "Content-Type", lit "application/x-www-form-urlencoded")],
    body := lit "question=" ++ encoded }

/-- Reading the content of an element. -/
def contentOf (w : Widget) (h : Nat) : JSString :=
  match w.heap[h]? with
  | some e => e.content
  | none => []

/-- The heap once the content of element `h` is `c`. -/
def assign (heap : List Elem) (h : Nat) (c : JSString) : List Elem :=
  match heap[h]? with
  | some e => heap.set h { e with content := c }
  | none => heap

/-- Assigning the content of an element. -/
def setContent (w : Widget) (h : Nat) (c : JSString) : Widget :=
  { w with heap := assign w.heap h c }

/-- Creating an element and appending it to `chatBox`. -/
def appendChild (w : Widget) (e : Elem) : Widget :=
  { w with heap := w.heap ++ [e], chatBox := w.chatBox ++ [w.heap.length] }

/-- Step 5, the `catch` block. -/
def catchBlock (w : Widget) : Widget :=
  appendChild { w with consoleErrors := w.consoleErrors + 1, indicatorDisplay := lit "none" }
    errorDiv

/-- Step 6, after the `try` statement. -/
def step6 (w : Widget) : Widget :=
  { w with btnDisabled := false, btnText := lit "Ask" }

/-- One run of `type` for the closure `t`. -/
def type (cmp : Nat → JSON → Bool) (w : Widget) (t : Timer) : Widget × TypeResult :=
  match typeBody cmp t.text t.i (contentOf w t.element) with
  | .appended c =>
    ({ setContent w t.element c with timers := w.timers ++ [{ t with i := t.i + 1 }] },
      .appended c)
  | .resolved => (w, .resolved)
  | .threw => (w, .threw)

/-- The call `typeWriter(element, text, speed)`, up to its return. -/
def typeWriter (cmp : Nat → JSON → Bool) (w : Widget) (element : Nat) (text : JSON)
    (speed : Nat) : Widget × TypeResult :=
  type cmp (setContent w element []) { element := element, text := text, i := 0, delay := speed }

/-- The handler from `response.json()` on, for the parsed body `data`. -/
def onData (cmp : Nat → JSON → Bool) (w : Widget) (data : JSON) : Widget :=
  match getAnswer data with
  | none => step6 (catchBlock w)
  | some v =>
    let answer := orFallback v
    let w1 := appendChild { w with indicatorDisplay := lit "none" } answerDiv
    match typeWriter cmp w1 w.heap.length answer 15 with
    | (w2, .appended _) => w2
    | (w2, .resolved) => step6 w2
    | (w2, .threw) => step6 (catchBlock w2)

/-- The `submit` listener, up to its first `await`. -/
def submit (w : Widget) : Widget :=
  let question := trim w.inputValue
  if question = [] then w
  else
    let w1 := appendChild { w with chatBox := [] } (questionDiv question)
    let w2 := { w1 with inputValue := [], btnDisabled := true, btnText := lit "Thinking...",
                        indicatorDisplay := lit "block" }
    match encodeURIComponent question with
    | none => step6 (catchBlock w2)
    | some encoded =>
      { w2 with sent := w2.sent ++ [request encoded],
                inFlight := w2.inFlight ++ [request encoded] }

/-- The request at position `k` of `inFlight` ends with outcome `o`, and the
handler waiting on it runs on to its next `await` or to its end. -/
def settle (cmp : Nat → JSON → Bool) (w : Widget) (k : Nat) (o : Outcome) : Widget :=
  if k < w.inFlight.length then
    let w1 := { w with inFlight := w.inFlight.eraseIdx k }
    match o with
    | .rejected => step6 (catchBlock w1)
    | .response _ none => step6 (catchBlock w1)
    | .response _ (some data) => onData cmp w1 data
  else w

/-- The callback at position `k` of `timers` runs.  When it resolves the
promise the handler waiting on it runs to its end.  An exception in a callback
reaches nobody: the promise stays unsettled. -/
def tick (cmp : Nat → JSON → Bool) (w : Widget) (k : Nat) : Widget :=
  match w.timers[k]? with
  | none => w
  | some t =>
    match type cmp { w with timers := w.timers.eraseIdx k } t with
    | (w1, .appended _) => w1
    | (w1, .resolved) => step6 w1
    | (w1, .threw) => w1

/-- What can happen to the page. -/
inductive Event where
  /-- The user edits the question field. -/
  | input (value : JSString)
  /-- The form is submitted. -/
  | submit
  /-- A request ends. -/
  | settle (k : Nat) (o : Outcome)
  /-- A scheduled callback runs. -/
  | tick (k : Nat)

def step (cmp : Nat → JSON → Bool) (w : Widget) : Event → Widget
  | .input value => { w with inputValue := value }
  | .submit => submit w
  | .settle k o => settle cmp w k o
  | .tick k => tick cmp w k

def run (cmp : Nat → JSON → Bool) (w : Widget) (events : List Event) : Widget :=
  events.foldl (step cmp) w

/-- The callback at position `k` runs, `n` times over. -/
def ticks (cmp : Nat → JSON → Bool) (k : Nat) : Nat → Widget → Widget
  | 0, w => w
  | n + 1, w => ticks cmp k n (tick cmp w k)

/-- A page with an empty display area, nothing typed and nothing under way. -/
def blank : Widget :=
  { heap := [], chatBox := [], inputValue := [], btnDisabled := false, btnText := lit "Ask",
    indicatorDisplay := lit "none", sent := [], inFlight := [], timers := [],
    consoleErrors := 0 }

/-- The contents of the children of `chatBox`, first to last. -/
def shown (w : Widget) : List JSString :=
  w.chatBox.map (contentOf w)

/-! ## States the proofs name -/

/-- The state `k` turns of the event loop after the call, while text is left. -/
def Reveal.typing (s : JSString) (speed k : Nat) : Reveal :=
  { content := typed (s.take (k + 1)), i := k + 1, pending := [speed], runs := k + 1,
    appends := k + 1, scheduled := k + 1, resolves := 0, rejected := false }

/-- The state once the promise is resolved. -/
def Reveal.finished (s : JSString) : Reveal :=
  { content := typed s, i := s.length, pending := [], runs := s.length + 1,
    appends := s.length, scheduled := s.length, resolves := 1, rejected := false }

/-- The widget while the reveal of the string `s` in element `h` waits with
cursor `i`; `base` is the widget without that reveal. -/
def revealing (base : Widget) (h : Nat) (s : JSString) (i : Nat) : Widget :=
  { setContent base h (typed (s.take i)) with
    timers := base.timers ++ [{ element := h, text := .str s, i := i, delay := 15 }] }

/-- The widget once the handler waiting on request `k` has created its
`answerDiv`, before `typeWriter` is called. -/
def answered (w : Widget) (k : Nat) : Widget :=
  appendChild { w with inFlight := w.inFlight.eraseIdx k, indicatorDisplay := lit "none" }
    answerDiv

/-- The widget after steps 1 and 2 of a submit with trimmed input `question`. -/
def asked (w : Widget) (question : JSString) : Widget :=
  { w with heap := w.heap ++ [questionDiv question], chatBox := [w.heap.length],
           inputValue := [], btnDisabled := true, btnText := lit "Thinking...",
           indicatorDisplay := lit "block" }

/-- The widget once the request for `question`, encoded as `enc`, is sent. -/
def posted (w : Widget) (question enc : JSString) : Widget :=
  { heap := w.heap ++ [questionDiv question], chatBox := [w.heap.length],
    inputValue := [], btnDisabled := true, btnText := lit "Thinking...",
    indicatorDisplay := lit "block", sent := w.sent ++ [request enc],
    inFlight := w.inFlight ++ [request enc], timers := w.timers,
    consoleErrors := w.consoleErrors }

/-- What the end of a handler run leaves of the state `w` it started from. -/
def Ended (w v : Widget) : Prop :=
  v.btnDisabled = false ∧ v.btnText = lit "Ask" ∧ v.inFlight = w.inFlight ∧
    v.timers = w.timers

/-! ## Well formed strings and failed requests -/

/-- `String.prototype.isWellFormed`: no surrogate stands alone. -/
def isWellFormed : JSString → Bool
  | [] => true
  | [c] => !(isHighSurrogate c || isLowSurrogate c)
  | c :: d :: rest =>
    if isHighSurrogate c then isLowSurrogate d && isWellFormed rest
    else !isLowSurrogate c && isWellFormed (d :: rest)

/-- The request failed: `fetch` rejected, or the body did not parse. -/
def Outcome.failed : Outcome → Bool
  | .rejected => true
  | .response _ none => true
  | .response _ (some _) => false

/-! ## Counting the nodes of the display area -/

/-- What tells the nodes of the script apart: class and colour. -/
def tag (e : Elem) : JSString × JSString := (e.className, e.color)

/-- The tags of the children `children`, read in `heap`. -/
def kindsOf (heap : List Elem) (children : List Nat) : List (Option (JSString × JSString)) :=
  children.map fun h => (heap[h]?).map tag

/-- The tags of the children of `chatBox`. -/
def kinds (w : Widget) : List (Option (JSString × JSString)) :=
  kindsOf w.heap w.chatBox

/-- Question nodes in the display area. -/
def questions (w : Widget) : Nat :=
  (kinds w).count (some (answerClass, questionColor))

/-- Answer nodes and error nodes in the display area. -/
def replies (w : Widget) : Nat :=
  (kinds w).count (some (answerClass, [])) + (kinds w).count (some (answerClass, errorColor))

/-- Every child is an element that exists. -/
def Tidy (heap : List Elem) (children : List Nat) : Prop :=
  ∀ h ∈ children, h < heap.length

/-- The reveal of `text` throws in its first run. -/
def throwsAtOnce (cmp : Nat → JSON → Bool) (text : JSON) : Bool :=
  match typeBody cmp text 0 [] with
  | .threw => true
  | _ => false

/-- An event of a page used one question at a time: no question is submitted
while a request is in flight, and no response carries an answer on which the
reveal throws. -/
def admissible (cmp : Nat → JSON → Bool) (w : Widget) : Event → Bool
  | .submit => trim w.inputValue = [] || w.inFlight.isEmpty
  | .settle _ (.response _ (some data)) =>
    match getAnswer data with
    | some v => !throwsAtOnce cmp (orFallback v)
    | none => true
  | _ => true

/-- Every event of the list is admissible where it happens. -/
def sequential (cmp : Nat → JSON → Bool) (w : Widget) : List Event → Bool
  | [] => true
  | e :: es => admissible cmp w e && sequential cmp (step cmp w e) es

/-! ## Pages and runs the statements are tried on -/

/-- A page where only white space has been typed while a request is under way. -/
def typedBlanks : Widget :=
  { blank with inputValue := lit "  \t ", btnDisabled := true, btnText := lit "Thinking...",
               inFlight := [request (lit "hi")], sent := [request (lit "hi")] }

/-- A page where a lone high surrogate has been typed. -/
def typedSurrogate : Widget :=
  { blank with inputValue := [0xD800] }

/-- A page where the question `What is 2+2?` has been typed between blanks. -/
def typedSum : Widget :=
  { blank with inputValue := lit " What is 2+2? " }

/-- A page that has sent the question "hi" and waits for the response. -/
def waiting : Widget :=
  submit { blank with inputValue := lit "hi" }

/-- The events of a cycle answered with status 500 and the body
`{"answer": "boom"}`. -/
def serverError : List Event :=
  [.input (lit "hi"), .submit,
   .settle 0 (.response 500 (some (.obj [(lit "answer", .str (lit "boom"))]))),
   .tick 0, .tick 0, .tick 0, .tick 0]

/-- One cycle answered with the body `{"answer": [1]}`. -/
def arrayAnswer : List Event :=
  [.input (lit "hi"), .submit,
   .settle 0 (.response 200 (some (.obj [(lit "answer", .arr [.num 1])])))]

/-- Two questions submitted before either response arrives. -/
def overlapping : List Event :=
  [.input (lit "a"), .submit, .input (lit "b"), .submit,
   .settle 0 (.response 200 (some (.obj [(lit "answer", .str (lit "x"))]))),
   .settle 0 (.response 200 (some (.obj [(lit "answer", .str (lit "y"))])))]

/-! ## The `innerHTML` round trip on text -/

theorem scan_escapeUnit (x : Nat) (rest : JSString) (h0 : x ≠ 0x00) (hr : x ≠ 0x0D) :
    scan .data (escapeUnit x ++ rest) = (scan .data rest).map (x :: ·) := by
  unfold escapeUnit
  by_cases h1 : x = 0x26
  · subst h1
    simp [scan, decodeName, isNameStart]
  · by_cases h2 : x = 0x3C
    · subst h2
      simp [scan, decodeName, isNameStart]
    · by_cases h3 : x = 0x3E
      · subst h3
        simp [scan, decodeName, isNameStart]
      · by_cases h4 : x = 0xA0
        · subst h4
          simp [scan, decodeName, isNameStart]
        · simp [h1, h2, h3, h4, scan, h0, hr]

theorem scan_getInnerHTML (t : JSString) (hclean : ∀ x ∈ t, x ≠ 0x00 ∧ x ≠ 0x0D)
    (rest : JSString) :
    scan .data (getInnerHTML t ++ rest) = (scan .data rest).map (t ++ ·) := by
  induction t with
  | nil => simp [getInnerHTML]
  | cons x t ih =>
    have hx := hclean x (List.mem_cons_self _ _)
    have ht : ∀ y ∈ t, y ≠ 0x00 ∧ y ≠ 0x0D := fun y hy => hclean y (List.mem_cons_of_mem _ hy)
    have e : getInnerHTML (x :: t) ++ rest = escapeUnit x ++ (getInnerHTML t ++ rest) := by
      simp [getInnerHTML]
    rw [e, scan_escapeUnit x _ hx.1 hx.2, ih ht]
    cases scan .data rest <;> simp

theorem scan_unit (c : Nat) : scan .data [c] = some (stored c) := by
  unfold stored
  by_cases h1 : c = 0x26
  · subst h1; simp [scan]
  · by_cases h2 : c = 0x3C
    · subst h2; simp [scan]
    · by_cases h3 : c = 0x00
      · subst h3; simp [scan]
      · by_cases h4 : c = 0x0D
        · subst h4; simp [scan]
        · simp [scan, h1, h2, h3, h4]

/-- Appending one code unit through `innerHTML` to a text without NUL and
carriage return adds what `stored` says, whatever the text holds. -/
theorem setInnerHTML_append (t : JSString) (hclean : ∀ x ∈ t, x ≠ 0x00 ∧ x ≠ 0x0D) (c : Nat) :
    setInnerHTML (getInnerHTML t ++ [c]) = t ++ stored c := by
  unfold setInnerHTML
  rw [scan_getInnerHTML t hclean, scan_unit]
  rfl

theorem typed_clean (s : JSString) : ∀ x ∈ typed s, x ≠ 0x00 ∧ x ≠ 0x0D := by
  intro x hx
  unfold typed at hx
  obtain ⟨c, _, hc⟩ := List.mem_flatMap.mp hx
  unfold stored at hc
  by_cases h0 : c = 0x00
  · simp [h0] at hc
  · by_cases hr : c = 0x0D
    · simp [hr] at hc
      subst hc
      decide
    · simp [h0, hr] at hc
      subst hc
      exact ⟨h0, hr⟩

theorem typed_of_clean (s : JSString) (h : isClean s = true) : typed s = s := by
  induction s with
  | nil => rfl
  | cons c t ih =>
    simp only [isClean, List.all_cons, Bool.and_eq_true, bne_iff_ne, ne_eq] at h
    have ht : isClean t = true := by
      simpa [isClean] using h.2
    have e : typed (c :: t) = stored c ++ typed t := by simp [typed]
    rw [e, ih ht]
    simp [stored, h.1.1, h.1.2]

theorem charAt_of_lt (s : JSString) (k : Nat) (hk : k < s.length) : charAt s k = [s[k]] := by
  unfold charAt
  rw [List.getElem?_eq_getElem hk]

theorem typed_take_succ (s : JSString) (k : Nat) (hk : k < s.length) :
    typed (s.take (k + 1)) = typed (s.take k) ++ stored s[k] := by
  unfold typed
  rw [List.take_succ, List.getElem?_eq_getElem hk, List.flatMap_append]
  simp

/-- One step of the reveal on the text typed so far. -/
theorem round_trip (s : JSString) (k : Nat) (hk : k < s.length) :
    setInnerHTML (getInnerHTML (typed (s.take k)) ++ charAt s k) = typed (s.take (k + 1)) := by
  rw [charAt_of_lt s k hk, setInnerHTML_append _ (typed_clean _), typed_take_succ s k hk]

/-! ## Properties of `typeWriter` on its own -/

theorem Reveal.type_of_lt (cmp : Nat → JSON → Bool) (s : JSString) (speed : Nat)
    (r : Reveal) (hi : r.i < s.length) :
    Reveal.type cmp (.str s) speed r =
      { r with content := setInnerHTML (getInnerHTML r.content ++ charAt s r.i),
               i := r.i + 1, pending := r.pending ++ [speed], runs := r.runs + 1,
               appends := r.appends + 1, scheduled := r.scheduled + 1 } := by
  simp [Reveal.type, typeBody, hi]

theorem Reveal.type_of_ge (cmp : Nat → JSON → Bool) (s : JSString) (speed : Nat)
    (r : Reveal) (hi : s.length ≤ r.i) :
    Reveal.type cmp (.str s) speed r
      = { r with runs := r.runs + 1, resolves := r.resolves + 1 } := by
  have hn : ¬ r.i < s.length := by omega
  simp [Reveal.type, typeBody, hn]

theorem Reveal.after_of_lt (cmp : Nat → JSON → Bool) (held s : JSString)
    (speed : Nat) :
    ∀ k, k < s.length → Reveal.after cmp held (.str s) speed k = Reveal.typing s speed k := by
  intro k
  induction k with
  | zero =>
    intro hk
    have h := round_trip s 0 hk
    rw [Reveal.after, Reveal.typeWriter, Reveal.type_of_lt cmp s speed _ hk]
    simp only [Reveal.cleared, Reveal.start, Reveal.typing]
    have h2 : setInnerHTML (getInnerHTML [] ++ charAt s 0) = typed (s.take (0 + 1)) := h
    rw [h2]
    rfl
  | succ k ih =>
    intro hk
    have h := round_trip s (k + 1) hk
    rw [Reveal.after, ih (by omega)]
    simp only [Reveal.fire, Reveal.typing]
    rw [Reveal.type_of_lt cmp s speed _ hk]
    simp only [Reveal.typing]
    rw [h]
    rfl

theorem Reveal.after_length (cmp : Nat → JSON → Bool) (held s : JSString)
    (speed : Nat) :
    Reveal.after cmp held (.str s) speed s.length = Reveal.finished s := by
  cases hs : s.length with
  | zero =>
    have : s = [] := List.length_eq_zero.mp hs
    subst this
    rfl
  | succ n =>
    have h := Reveal.after_of_lt cmp held s speed n (by omega)
    rw [Reveal.after, h]
    simp only [Reveal.fire, Reveal.typing]
    rw [Reveal.type_of_ge cmp s speed _ (by simp [hs])]
    simp [Reveal.finished, hs, List.take_of_length_le (Nat.le_of_eq hs)]

theorem Reveal.after_of_ge (cmp : Nat → JSON → Bool) (held s : JSString)
    (speed : Nat) :
    ∀ k, s.length ≤ k → Reveal.after cmp held (.str s) speed k = Reveal.finished s := by
  intro k hk
  induction k with
  | zero =>
    have h0 : s.length = 0 := by omega
    have := Reveal.after_length cmp held s speed
    rwa [h0] at this
  | succ k ih =>
    rcases Nat.eq_or_lt_of_le hk with h | h
    · rw [← h]
      exact Reveal.after_length cmp held s speed
    · simp [Reveal.after, ih (by omega), Reveal.fire, Reveal.finished]

/-- What `typeWriter` leaves in the element, for every string: after the `k`-th
run of `type` the text typed from the first `k` code units, and the text typed
from the whole string whenever the promise is resolved. -/
theorem typeWriter_reveals_typed (cmp : Nat → JSON → Bool) (held s : JSString)
    (speed : Nat) :
    (∀ k, 1 ≤ k → k ≤ s.length →
      (Reveal.after cmp held (.str s) speed (k - 1)).runs = k ∧
      (Reveal.after cmp held (.str s) speed (k - 1)).content = typed (s.take k)) ∧
    (Reveal.after cmp held (.str s) speed s.length).resolves = 1 ∧
    (∀ n, 0 < (Reveal.after cmp held (.str s) speed n).resolves →
      (Reveal.after cmp held (.str s) speed n).content = typed s) := by
  refine ⟨?_, ?_, ?_⟩
  · intro k h1 hk
    obtain ⟨j, rfl⟩ : ∃ j, k = j + 1 := ⟨k - 1, by omega⟩
    rw [Nat.add_sub_cancel, Reveal.after_of_lt cmp held s speed j (by omega)]
    exact ⟨rfl, rfl⟩
  · rw [Reveal.after_length cmp held s speed]
    rfl
  · intro n hn
    rcases Nat.lt_or_ge n s.length with h | h
    · rw [Reveal.after_of_lt cmp held s speed n h] at hn
      simp [Reveal.typing] at hn
    · rw [Reveal.after_of_ge cmp held s speed n h]
      rfl

/-- C1 fails on the code at the texts "a\r\nb" and "a\0b".  The statement
`element.innerHTML += text.charAt(i)` sends the text through the HTML parser at
every step: the carriage return is stored as a line feed, so the element ends
as "a\n\nb", not as the text; the NUL adds nothing, so the second run leaves
the element as the first did.  The promise is resolved all the same. -/
theorem typeWriter_rewrites_line_ends :
    (Reveal.after neverLess [] (.str [0x61, 0x0D, 0x0A, 0x62]) 15 4).resolves = 1 ∧
    (Reveal.after neverLess [] (.str [0x61, 0x0D, 0x0A, 0x62]) 15 4).content
      = [0x61, 0x0A, 0x0A, 0x62] ∧
    (Reveal.after neverLess [] (.str [0x61, 0x0D, 0x0A, 0x62]) 15 4).content
      ≠ [0x61, 0x0D, 0x0A, 0x62] ∧
    (Reveal.after neverLess [] (.str [0x61, 0x00, 0x62]) 15 0).content = [0x61] ∧
    (Reveal.after neverLess [] (.str [0x61, 0x00, 0x62]) 15 1).content = [0x61] ∧
    (Reveal.after neverLess [] (.str [0x61, 0x00, 0x62]) 15 2).content = [0x61, 0x62] ∧
    (Reveal.after neverLess [] (.str [0x61, 0x00, 0x62]) 15 1).runs = 2 := by
  decide

/-- X1: for a text without NUL and carriage return, markup characters
included, `typeWriter` clears the element, whatever it held, before the first run of
`type`; after the `k`-th run of `type`, `1 ≤ k ≤ s.length`, the element holds
the first `k` code units of the text; the promise does get resolved, and
whenever it is resolved the element holds the text exactly. -/
theorem typeWriter_reveals_clean_prefixes (cmp : Nat → JSON → Bool) (held s : JSString)
    (speed : Nat) (hclean : isClean s = true) :
    (Reveal.cleared (Reveal.start held)).content = [] ∧
    (∀ k, 1 ≤ k → k ≤ s.length →
      (Reveal.after cmp held (.str s) speed (k - 1)).runs = k ∧
      (Reveal.after cmp held (.str s) speed (k - 1)).content = s.take k) ∧
    (Reveal.after cmp held (.str s) speed s.length).resolves = 1 ∧
    (∀ n, 0 < (Reveal.after cmp held (.str s) speed n).resolves →
      (Reveal.after cmp held (.str s) speed n).content = s) := by
  have h := typeWriter_reveals_typed cmp held s speed
  have hall : ∀ c ∈ s, c ≠ 0x00 ∧ c ≠ 0x0D := by
    intro c hc
    have := List.all_eq_true.mp hclean c hc
    simpa using this
  refine ⟨rfl, ?_, h.2.1, ?_⟩
  · intro k h1 hk
    have hk2 := h.1 k h1 hk
    refine ⟨hk2.1, ?_⟩
    rw [hk2.2]
    apply typed_of_clean
    exact List.all_eq_true.mpr fun c hc => by
      have := hall c (List.mem_of_mem_take hc)
      simpa using this
  · intro n hn
    rw [h.2.2 n hn]
    exact typed_of_clean s hclean

/-- X1 at the text "<b>Hi": the five runs of `type` that append leave "<", "<b",
"<b>", "<b>H" and "<b>Hi" as text. -/
theorem typeWriter_reveals_clean_prefixes_witness :
    (Reveal.after neverLess (lit "old") (.str (lit "<b>Hi")) 15 0).content = lit "<" ∧
    (Reveal.after neverLess (lit "old") (.str (lit "<b>Hi")) 15 1).content = lit "<b" ∧
    (Reveal.after neverLess (lit "old") (.str (lit "<b>Hi")) 15 2).content = lit "<b>" ∧
    (Reveal.after neverLess (lit "old") (.str (lit "<b>Hi")) 15 3).content = lit "<b>H" ∧
    (Reveal.after neverLess (lit "old") (.str (lit "<b>Hi")) 15 4).content = lit "<b>Hi" :=
  have h := (typeWriter_reveals_clean_prefixes neverLess (lit "old") (lit "<b>Hi") 15
    (by decide)).2.1
  ⟨(h 1 (by decide) (by decide)).2, (h 2 (by decide) (by decide)).2,
   (h 3 (by decide) (by decide)).2, (h 4 (by decide) (by decide)).2,
   (h 5 (by decide) (by decide)).2⟩

/-- C10: for a string `s` of length `n` and any delay, `typeWriter` comes to an
end: `n` turns of the event loop after the call nothing is scheduled any more,
`type` has run `n + 1` times, appended `n` times, scheduled `n` callbacks and
resolved the promise once; before that the promise is not resolved and exactly
one callback, with the given delay, is waiting; later turns change nothing.
For `n = 0` the call itself resolves the promise, schedules nothing and leaves
the element empty. -/
theorem typeWriter_terminates (cmp : Nat → JSON → Bool) (held s : JSString)
    (speed : Nat) :
    (Reveal.after cmp held (.str s) speed s.length).pending = [] ∧
    (Reveal.after cmp held (.str s) speed s.length).runs = s.length + 1 ∧
    (Reveal.after cmp held (.str s) speed s.length).appends = s.length ∧
    (Reveal.after cmp held (.str s) speed s.length).scheduled = s.length ∧
    (Reveal.after cmp held (.str s) speed s.length).resolves = 1 ∧
    (Reveal.after cmp held (.str s) speed s.length).rejected = false ∧
    (∀ k, k < s.length →
      (Reveal.after cmp held (.str s) speed k).resolves = 0 ∧
      (Reveal.after cmp held (.str s) speed k).runs = k + 1 ∧
      (Reveal.after cmp held (.str s) speed k).pending = [speed]) ∧
    (∀ k, s.length ≤ k →
      Reveal.after cmp held (.str s) speed k = Reveal.after cmp held (.str s) speed s.length) ∧
    (s.length = 0 →
      (Reveal.typeWriter cmp held (.str s) speed).resolves = 1 ∧
      (Reveal.typeWriter cmp held (.str s) speed).scheduled = 0 ∧
      (Reveal.typeWriter cmp held (.str s) speed).pending = [] ∧
      (Reveal.typeWriter cmp held (.str s) speed).content = []) := by
  rw [Reveal.after_length cmp held s speed]
  refine ⟨rfl, rfl, rfl, rfl, rfl, rfl, ?_, ?_, ?_⟩
  · intro k hk
    rw [Reveal.after_of_lt cmp held s speed k hk]
    exact ⟨rfl, rfl, rfl⟩
  · intro k hk
    exact Reveal.after_of_ge cmp held s speed k hk
  · intro h0
    have h := Reveal.after_length cmp held s speed
    rw [h0] at h
    have hs : s = [] := List.length_eq_zero.mp h0
    change Reveal.typeWriter cmp held (.str s) speed = Reveal.finished s at h
    rw [h, hs]
    exact ⟨rfl, rfl, rfl, rfl⟩

/-- C10 at the empty text and at "Hello": one run and no callback; six runs,
five appends, five callbacks and one resolution. -/
theorem typeWriter_terminates_witness :
    (Reveal.typeWriter neverLess (lit "old") (.str []) 15).resolves = 1 ∧
    (Reveal.typeWriter neverLess (lit "old") (.str []) 15).scheduled = 0 ∧
    (Reveal.after neverLess (lit "old") (.str (lit "Hello")) 15 5).runs = 6 ∧
    (Reveal.after neverLess (lit "old") (.str (lit "Hello")) 15 5).appends = 5 ∧
    (Reveal.after neverLess (lit "old") (.str (lit "Hello")) 15 5).scheduled = 5 ∧
    (Reveal.after neverLess (lit "old") (.str (lit "Hello")) 15 5).resolves = 1 :=
  have h0 := (typeWriter_terminates neverLess (lit "old") [] 15).2.2.2.2.2.2.2.2 rfl
  have h5 := typeWriter_terminates neverLess (lit "old") (lit "Hello") 15
  ⟨h0.1, h0.2.1, h5.2.1, h5.2.2.1, h5.2.2.2.1, h5.2.2.2.2.1⟩

/-! ## Elements and their content -/

theorem assign_length (heap : List Elem) (h : Nat) (c : JSString) :
    (assign heap h c).length = heap.length := by
  unfold assign
  split <;> simp

theorem assign_assign (heap : List Elem) (h : Nat) (c d : JSString) :
    assign (assign heap h c) h d = assign heap h d := by
  unfold assign
  cases hg : heap[h]? with
  | none => simp [hg]
  | some e =>
    have hlt : h < heap.length := (List.getElem?_eq_some_iff.mp hg).1
    simp [List.getElem?_set, hlt]

theorem assign_append_new (heap : List Elem) (e : Elem) (c : JSString) :
    assign (heap ++ [e]) heap.length c = heap ++ [{ e with content := c }] := by
  unfold assign
  simp

theorem contentOf_setContent (w : Widget) (h : Nat) (c : JSString) (hlt : h < w.heap.length) :
    contentOf (setContent w h c) h = c := by
  unfold contentOf setContent assign
  simp [List.getElem?_eq_getElem hlt, List.getElem?_set, hlt]

/-! ## A reveal inside the widget -/

theorem eraseIdx_concat_length {α : Type} (l : List α) (a : α) :
    (l ++ [a]).eraseIdx l.length = l := by
  simp [List.eraseIdx_append_of_length_le]

theorem tick_revealing_of_lt (cmp : Nat → JSON → Bool) (base : Widget) (h : Nat)
    (s : JSString) (i : Nat) (hh : h < base.heap.length) (hi : i < s.length) :
    tick cmp (revealing base h s i) base.timers.length = revealing base h s (i + 1) := by
  have hc : contentOf (setContent base h (typed (s.take i))) h = typed (s.take i) :=
    contentOf_setContent base h _ hh
  have hc2 : contentOf
      { setContent base h (typed (s.take i)) with timers := base.timers } h
        = typed (s.take i) := hc
  simp only [tick, revealing, List.getElem?_concat_length, eraseIdx_concat_length, type,
    typeBody, hi, if_true, hc2, round_trip s i hi]
  simp [setContent, assign_assign]

theorem tick_revealing_of_ge (cmp : Nat → JSON → Bool) (base : Widget) (h : Nat)
    (s : JSString) (i : Nat) (hi : s.length ≤ i) :
    tick cmp (revealing base h s i) base.timers.length
      = step6 (setContent base h (typed s)) := by
  have hn : ¬ i < s.length := by omega
  simp only [tick, revealing, List.getElem?_concat_length, eraseIdx_concat_length, type,
    typeBody, hn, if_false, List.take_of_length_le hi]
  rfl

theorem ticks_revealing (cmp : Nat → JSON → Bool) (base : Widget) (h : Nat)
    (s : JSString) (hh : h < base.heap.length) :
    ∀ n i, i + n = s.length →
      ticks cmp base.timers.length (n + 1) (revealing base h s i)
        = step6 (setContent base h (typed s)) := by
  intro n
  induction n with
  | zero =>
    intro i hi
    simp only [ticks]
    exact tick_revealing_of_ge cmp base h s i (by omega)
  | succ n ih =>
    intro i hi
    rw [ticks, tick_revealing_of_lt cmp base h s i hh (by omega)]
    exact ih (i + 1) (by omega)

theorem onData_string (cmp : Nat → JSON → Bool) (w : Widget) (data : JSON)
    (v : Option JSON) (s : JSString) (hv : getAnswer data = some v)
    (hs : orFallback v = .str s) (hne : s ≠ []) :
    onData cmp w data
      = revealing (appendChild { w with indicatorDisplay := lit "none" } answerDiv)
          w.heap.length s 1 := by
  have hpos : 0 < s.length := List.length_pos.mpr hne
  have hc : contentOf
      (setContent (appendChild { w with indicatorDisplay := lit "none" } answerDiv)
        w.heap.length []) w.heap.length = [] :=
    contentOf_setContent _ _ _ (by simp [appendChild])
  have ht : setInnerHTML (getInnerHTML [] ++ charAt s 0) = typed (s.take 1) :=
    round_trip s 0 hpos
  simp only [onData, hv, hs, typeWriter, type, typeBody, hpos, if_true, hc, ht, revealing]
  simp [setContent, assign_assign]

theorem settle_string (cmp : Nat → JSON → Bool) (w : Widget) (k status : Nat) (data : JSON)
    (v : Option JSON) (s : JSString) (hk : k < w.inFlight.length)
    (hv : getAnswer data = some v) (hs : orFallback v = .str s) (hne : s ≠ []) :
    settle cmp w k (.response status (some data))
      = revealing (answered w k) w.heap.length s 1 := by
  simp only [settle, hk, if_true]
  exact onData_string cmp _ data v s hv hs hne

theorem reveal_completes (cmp : Nat → JSON → Bool) (w : Widget) (k status : Nat)
    (data : JSON) (v : Option JSON) (s : JSString) (hk : k < w.inFlight.length)
    (hv : getAnswer data = some v) (hs : orFallback v = .str s) (hne : s ≠ []) :
    ticks cmp w.timers.length s.length (settle cmp w k (.response status (some data)))
      = step6 (setContent (answered w k) w.heap.length (typed s)) := by
  have hpos : 0 < s.length := List.length_pos.mpr hne
  rw [settle_string cmp w k status data v s hk hv hs hne]
  have h := ticks_revealing cmp (answered w k) w.heap.length s (by simp [answered, appendChild])
    (s.length - 1) 1 (by omega)
  have e : s.length - 1 + 1 = s.length := by omega
  rw [e] at h
  exact h

theorem lookupMember_eq_none (key : JSString) (members : List (JSString × JSON)) :
    lookupMember key members = none ↔ ∀ p ∈ members, p.1 ≠ key := by
  induction members with
  | nil => simp [lookupMember]
  | cons p rest ih =>
    obtain ⟨k, v⟩ := p
    cases hl : lookupMember key rest with
    | some later =>
      have hn : ¬ ∀ p ∈ rest, p.1 ≠ key := fun h => by simp [ih.mpr h] at hl
      constructor
      · intro h
        simp [lookupMember, hl] at h
      · intro h
        exact absurd (fun p hp => h p (List.mem_cons_of_mem _ hp)) hn
    | none =>
      have hr := ih.mp hl
      constructor
      · intro h p hp
        rcases List.mem_cons.mp hp with rfl | hp
        · intro hkey
          simp [lookupMember, hl] at h
          exact h hkey
        · exact hr p hp
      · intro h
        have hkey : k ≠ key := h (k, v) (List.mem_cons_self _ _)
        simp [lookupMember, hl, hkey]

/-! ## The guard and the request -/

theorem unreserved_not_surrogate (c : Nat) (h : isUnreserved c = true) :
    isHighSurrogate c = false ∧ isLowSurrogate c = false := by
  simp only [isUnreserved, Bool.or_eq_true, Bool.and_eq_true, decide_eq_true_eq] at h
  simp only [isHighSurrogate, isLowSurrogate, Bool.and_eq_false_iff, decide_eq_false_iff_not]
  omega

/-- `encodeURIComponent` throws exactly at the strings that are not well formed. -/
theorem encode_isSome (q : JSString) :
    (encodeURIComponent q).isSome = isWellFormed q := by
  induction q using encodeURIComponent.induct with
  | case1 => rfl
  | case2 c h => simp [encodeURIComponent, isWellFormed, h, unreserved_not_surrogate c h]
  | case3 c h1 h2 =>
    simp only [Bool.or_eq_true] at h2
    rcases h2 with h2 | h2 <;> simp [encodeURIComponent, isWellFormed, h1, h2]
  | case4 c h1 h2 =>
    simp only [Bool.or_eq_true, not_or, Bool.not_eq_true] at h2
    simp [encodeURIComponent, isWellFormed, h1, h2.1, h2.2]
  | case5 c d rest h ih =>
    simp [encodeURIComponent, isWellFormed, h, unreserved_not_surrogate c h, ih]
  | case6 c d rest h1 h2 h3 ih =>
    simp [encodeURIComponent, isWellFormed, h1, h2, h3, ih]
  | case7 c d rest h1 h2 h3 =>
    simp [encodeURIComponent, isWellFormed, h1, h2, h3]
  | case8 c d rest h1 h2 h3 =>
    simp [encodeURIComponent, isWellFormed, h1, h2, h3]
  | case9 c d rest h1 h2 h3 ih =>
    simp [encodeURIComponent, isWellFormed, h1, h2, h3, ih]

/-- The trimmed value is empty exactly for the inputs made of white space only. -/
theorem trim_eq_nil (s : JSString) :
    trim s = [] ↔ ∀ c ∈ s, isWhiteSpace c = true := by
  unfold trim
  rw [List.reverse_eq_nil_iff, List.dropWhile_eq_nil_iff]
  constructor
  · intro h
    have h2 : ∀ c ∈ s.dropWhile isWhiteSpace, isWhiteSpace c = true :=
      fun c hc => h c (List.mem_reverse.mpr hc)
    have h3 := List.dropWhile_eq_nil_iff.mpr h2
    rw [List.dropWhile_idempotent] at h3
    exact List.dropWhile_eq_nil_iff.mp h3
  · intro h
    rw [List.dropWhile_eq_nil_iff.mpr h]
    simp

theorem submit_blank (w : Widget) (h : trim w.inputValue = []) : submit w = w := by
  simp [submit, h]

/-- C3: when the trimmed input is empty the handler leaves the widget as it
found it: display area, input field, submit control, progress indicator, and
the list of requests sent. -/
theorem submit_blank_input_is_noop (w : Widget) (h : trim w.inputValue = []) :
    submit w = w ∧
    (submit w).chatBox = w.chatBox ∧ (submit w).heap = w.heap ∧
    (submit w).inputValue = w.inputValue ∧
    (submit w).btnDisabled = w.btnDisabled ∧ (submit w).btnText = w.btnText ∧
    (submit w).indicatorDisplay = w.indicatorDisplay ∧
    (submit w).sent = w.sent ∧ (submit w).inFlight = w.inFlight := by
  rw [submit_blank w h]
  simp

/-- C3 at an input of blanks and a tab. -/
theorem submit_blank_input_is_noop_witness :
    trim typedBlanks.inputValue = [] ∧ submit typedBlanks = typedBlanks :=
  ⟨by decide, (submit_blank_input_is_noop typedBlanks (by decide)).1⟩

theorem submit_encoded (w : Widget) (enc : JSString) (hq : trim w.inputValue ≠ [])
    (henc : encodeURIComponent (trim w.inputValue) = some enc) :
    submit w = posted w (trim w.inputValue) enc := by
  simp [submit, hq, henc, posted, appendChild]

theorem submit_malformed (w : Widget) (hq : trim w.inputValue ≠ [])
    (henc : encodeURIComponent (trim w.inputValue) = none) :
    submit w = step6 (catchBlock (asked w (trim w.inputValue))) := by
  simp [submit, hq, henc, asked, appendChild]

/-- C5 fails at an input that is one unpaired surrogate: the trimmed value is
not empty, `encodeURIComponent` throws inside the `try`, no request is sent and
the error message is shown. -/
theorem lone_surrogate_sends_nothing :
    trim typedSurrogate.inputValue ≠ [] ∧
    (submit typedSurrogate).sent = [] ∧
    (submit typedSurrogate).inFlight = [] ∧
    shown (submit typedSurrogate)
      = [lit "<strong>Q:</strong> " ++ [0xD800], errorText] := by
  decide

/-- C5, amended: when the trimmed input `q` is not empty and well formed, one
submit sends exactly one request: `POST /` with the header
`Content-Type: application/x-www-form-urlencoded` and the body `question=`
followed by `encodeURIComponent(q)`; that request is then in flight. -/
theorem submit_sends_one_post (w : Widget) (hq : trim w.inputValue ≠ [])
    (hwf : isWellFormed (trim w.inputValue) = true) :
    ∃ enc, encodeURIComponent (trim w.inputValue) = some enc ∧
      (submit w).sent = w.sent ++
        [{ url := lit "/", method := lit "POST",
           headers := [(lit "Content-Type", lit "application/x-www-form-urlencoded")],
           body := lit "question=" ++ enc }] ∧
      (submit w).inFlight = w.inFlight ++
        [{ url := lit "/", method := lit "POST",
           headers := [(lit "Content-Type", lit "application/x-www-form-urlencoded")],
           body := lit "question=" ++ enc }] := by
  have hsome := encode_isSome (trim w.inputValue)
  rw [hwf] at hsome
  obtain ⟨enc, henc⟩ := Option.isSome_iff_exists.mp hsome
  refine ⟨enc, henc, ?_, ?_⟩ <;> rw [submit_encoded w enc hq henc] <;> rfl

/-- C5 at the input " What is 2+2? ": one request, with the body
`question=What%20is%202%2B2%3F`. -/
theorem submit_sends_one_post_witness :
    (submit typedSum).sent =
      [{ url := lit "/", method := lit "POST",
         headers := [(lit "Content-Type", lit "application/x-www-form-urlencoded")],
         body := lit "question=What%20is%202%2B2%3F" }] := by
  obtain ⟨enc, henc, hsent, _⟩ :=
    submit_sends_one_post typedSum (by decide) (by decide)
  have hval : encodeURIComponent (trim typedSum.inputValue)
      = some (lit "What%20is%202%2B2%3F") := by decide
  rw [hval] at henc
  cases henc
  exact hsent

/-! ## The answer -/

theorem orFallback_of_falsy (v : Option JSON) (h : truthy v = false) :
    orFallback v = .str fallbackText := by
  cases v with
  | none => rfl
  | some a => simp [orFallback, h]

theorem fallbackText_ne_nil : fallbackText ≠ [] := by decide

/-- The widget after the reveal of `s` started by the response to request `k`
has run to its end. -/
theorem revealed_fields (w : Widget) (k : Nat) (s : JSString) :
    (step6 (setContent (answered w k) w.heap.length s)).heap
        = w.heap ++ [{ answerDiv with content := s }] ∧
    (step6 (setContent (answered w k) w.heap.length s)).chatBox
        = w.chatBox ++ [w.heap.length] ∧
    contentOf (step6 (setContent (answered w k) w.heap.length s)) w.heap.length = s := by
  refine ⟨?_, rfl, ?_⟩
  · simp [step6, setContent, answered, appendChild, assign_append_new]
  · have h := contentOf_setContent (answered w k) w.heap.length s
      (by simp [answered, appendChild])
    exact h

/-- C6: when the body parses as an object without an `answer` member, the text
handed to the reveal is the fallback string; once the reveal has run, the new
answer node holds exactly that string, it is the last child of the display
area and the only element created, and the error path was not taken. -/
theorem missing_answer_shows_fallback (cmp : Nat → JSON → Bool) (w : Widget)
    (k status : Nat) (members : List (JSString × JSON)) (hk : k < w.inFlight.length)
    (hno : ∀ p ∈ members, p.1 ≠ lit "answer") :
    (settle cmp w k (.response status (some (.obj members)))).timers
      = w.timers ++
        [{ element := w.heap.length, text := .str fallbackText, i := 1, delay := 15 }] ∧
    contentOf (ticks cmp w.timers.length fallbackText.length
      (settle cmp w k (.response status (some (.obj members))))) w.heap.length
      = fallbackText ∧
    (ticks cmp w.timers.length fallbackText.length
      (settle cmp w k (.response status (some (.obj members))))).heap
      = w.heap ++ [{ answerDiv with content := fallbackText }] ∧
    (ticks cmp w.timers.length fallbackText.length
      (settle cmp w k (.response status (some (.obj members))))).chatBox
      = w.chatBox ++ [w.heap.length] ∧
    (ticks cmp w.timers.length fallbackText.length
      (settle cmp w k (.response status (some (.obj members))))).consoleErrors
      = w.consoleErrors ∧
    (ticks cmp w.timers.length fallbackText.length
      (settle cmp w k (.response status (some (.obj members))))).timers = w.timers := by
  have hv : getAnswer (.obj members) = some none := by
    simp [getAnswer, (lookupMember_eq_none _ _).mpr hno]
  have hs : orFallback none = .str fallbackText := rfl
  rw [reveal_completes cmp w k status _ none fallbackText hk hv hs fallbackText_ne_nil,
    settle_string cmp w k status _ none fallbackText hk hv hs fallbackText_ne_nil]
  have hf := revealed_fields w k fallbackText
  exact ⟨rfl, hf.2.2, hf.1, hf.2.1, rfl, rfl⟩

/-- C6 at the body `{}`: after the 34 callbacks the answer node, element 1,
holds the fallback text and is the last child of the display area. -/
theorem missing_answer_shows_fallback_witness :
    contentOf (ticks neverLess 0 34
      (settle neverLess waiting 0 (.response 200 (some (.obj []))))) 1
      = lit "Sorry, I could not get a response." ∧
    (ticks neverLess 0 34
      (settle neverLess waiting 0 (.response 200 (some (.obj []))))).chatBox = [0, 1] :=
  have h := missing_answer_shows_fallback neverLess waiting 0 200 [] (by decide) (by simp)
  ⟨h.2.1, h.2.2.2.1⟩

/-- C7 fails at the bodies `{"answer": 42}` and `null`.  The number 42 is
truthy, so it is handed to the reveal as it is: it has no `length`, the promise
resolves at once and the answer node stays empty.  Reading `answer` of `null`
throws, and the error message is shown.  Neither shows the fallback text. -/
theorem odd_bodies_show_no_fallback :
    shown (settle neverLess waiting 0
        (.response 200 (some (.obj [(lit "answer", .num 42)]))))
      = [lit "<strong>Q:</strong> hi", []] ∧
    (settle neverLess waiting 0
        (.response 200 (some (.obj [(lit "answer", .num 42)])))).timers.length = 0 ∧
    (settle neverLess waiting 0
        (.response 200 (some (.obj [(lit "answer", .num 42)])))).btnDisabled = false ∧
    shown (settle neverLess waiting 0 (.response 200 (some .null)))
      = [lit "<strong>Q:</strong> hi", errorText] := by
  decide

/-- C7, amended: when the body is a JSON value other than `null` whose `answer`
is missing or falsy (`null`, `false`, zero, the empty string), the text handed
to the reveal is the fallback string and, once the reveal has run, the new
answer node holds exactly that string as the last child of the display area;
the error path is not taken. -/
theorem falsy_answer_shows_fallback (cmp : Nat → JSON → Bool) (w : Widget)
    (k status : Nat) (data : JSON) (v : Option JSON) (hk : k < w.inFlight.length)
    (hv : getAnswer data = some v) (hf : truthy v = false) :
    (settle cmp w k (.response status (some data))).timers
      = w.timers ++
        [{ element := w.heap.length, text := .str fallbackText, i := 1, delay := 15 }] ∧
    contentOf (ticks cmp w.timers.length fallbackText.length
      (settle cmp w k (.response status (some data)))) w.heap.length = fallbackText ∧
    (ticks cmp w.timers.length fallbackText.length
      (settle cmp w k (.response status (some data)))).heap
      = w.heap ++ [{ answerDiv with content := fallbackText }] ∧
    (ticks cmp w.timers.length fallbackText.length
      (settle cmp w k (.response status (some data)))).chatBox
      = w.chatBox ++ [w.heap.length] ∧
    (ticks cmp w.timers.length fallbackText.length
      (settle cmp w k (.response status (some data)))).consoleErrors = w.consoleErrors := by
  have hs := orFallback_of_falsy v hf
  rw [reveal_completes cmp w k status data v fallbackText hk hv hs fallbackText_ne_nil,
    settle_string cmp w k status data v fallbackText hk hv hs fallbackText_ne_nil]
  have h := revealed_fields w k fallbackText
  exact ⟨rfl, h.2.2, h.1, h.2.1, rfl⟩

/-- C7, amended, at the body `{"answer": null}` and at the bare array `[1]`. -/
theorem falsy_answer_shows_fallback_witness :
    contentOf (ticks neverLess 0 34
      (settle neverLess waiting 0
        (.response 200 (some (.obj [(lit "answer", .null)]))))) 1
      = lit "Sorry, I could not get a response." ∧
    contentOf (ticks neverLess 0 34
      (settle neverLess waiting 0 (.response 200 (some (.arr [.num 1]))))) 1
      = lit "Sorry, I could not get a response." :=
  ⟨(falsy_answer_shows_fallback neverLess waiting 0 200 (.obj [(lit "answer", .null)])
      (some .null) (by decide) rfl rfl).2.1,
   (falsy_answer_shows_fallback neverLess waiting 0 200 (.arr [.num 1])
      none (by decide) rfl rfl).2.1⟩

/-! ## The status of the response -/

/-- C2 fails at status 500 with the body `{"answer": "boom"}`: the answer text
is revealed, the `catch` block does not run and no error message is shown. -/
theorem non_ok_status_is_rendered :
    shown (run neverLess blank serverError) = [lit "<strong>Q:</strong> hi", lit "boom"] ∧
    (run neverLess blank serverError).consoleErrors = 0 ∧
    (run neverLess blank serverError).timers.length = 0 ∧
    (run neverLess blank serverError).btnDisabled = false := by
  decide

/-- C2, amended: the handler does not look at the status.  A response of any
status is handled as the response of status 200 with the same body; when that
body has a non-empty string `answer` without NUL and carriage return, the
reveal leaves exactly that string in the new answer node, the last child of
the display area, and the `catch` block does not run.  The error message
belongs to a rejected `fetch` and to a body that does not parse. -/
theorem status_is_ignored (cmp : Nat → JSON → Bool) (w : Widget) (k status : Nat)
    (data : JSON) (s : JSString) (hk : k < w.inFlight.length)
    (hv : getAnswer data = some (some (.str s))) (hne : s ≠ [])
    (hclean : isClean s = true) :
    (∀ body, settle cmp w k (.response status body) = settle cmp w k (.response 200 body)) ∧
    contentOf (ticks cmp w.timers.length s.length
      (settle cmp w k (.response status (some data)))) w.heap.length = s ∧
    (ticks cmp w.timers.length s.length
      (settle cmp w k (.response status (some data)))).heap
      = w.heap ++ [{ answerDiv with content := s }] ∧
    (ticks cmp w.timers.length s.length
      (settle cmp w k (.response status (some data)))).chatBox
      = w.chatBox ++ [w.heap.length] ∧
    (ticks cmp w.timers.length s.length
      (settle cmp w k (.response status (some data)))).consoleErrors = w.consoleErrors ∧
    (settle cmp w k (.response status none)).heap = w.heap ++ [errorDiv] ∧
    (settle cmp w k .rejected).heap = w.heap ++ [errorDiv] := by
  have hs : orFallback (some (.str s)) = .str s := by
    cases s with
    | nil => exact absurd rfl hne
    | cons c t => rfl
  rw [reveal_completes cmp w k status data _ s hk hv hs hne, typed_of_clean s hclean]
  have h := revealed_fields w k s
  refine ⟨?_, h.2.2, h.1, h.2.1, rfl, ?_, ?_⟩
  · intro body
    cases body <;> rfl
  · simp [settle, hk, step6, catchBlock, appendChild]
  · simp [settle, hk, step6, catchBlock, appendChild]

/-- C2, amended, at status 500 and the body `{"answer": "boom"}`. -/
theorem status_is_ignored_witness :
    contentOf (ticks neverLess 0 4
      (settle neverLess waiting 0
        (.response 500 (some (.obj [(lit "answer", .str (lit "boom"))]))))) 1
      = lit "boom" :=
  (status_is_ignored neverLess waiting 0 500 (.obj [(lit "answer", .str (lit "boom"))])
    (lit "boom") (by decide) rfl (by decide) (by decide)).2.1

/-! ## Failure, and the end of a cycle -/

theorem settle_failed (cmp : Nat → JSON → Bool) (w : Widget) (k : Nat) (o : Outcome)
    (hk : k < w.inFlight.length) (ho : o.failed = true) :
    settle cmp w k o = step6 (catchBlock { w with inFlight := w.inFlight.eraseIdx k }) := by
  cases o with
  | rejected => simp [settle, hk]
  | response status body =>
    cases body with
    | none => simp [settle, hk]
    | some data => simp [Outcome.failed] at ho

theorem settle_out_of_range (cmp : Nat → JSON → Bool) (w : Widget) (k : Nat) (o : Outcome)
    (hk : w.inFlight.length ≤ k) : settle cmp w k o = w := by
  have : ¬ k < w.inFlight.length := by omega
  simp [settle, this]

/-- C8: for a non-empty trimmed question whose request fails (`fetch` rejects
or the body does not parse), the cycle is over as soon as the failure arrives:
the progress indicator is hidden, the display area is the question node
followed by a node holding the error message, which is its last child, and
the only elements the cycle created are these two, so no answer node.  In any
state, a failure of a request in flight hides the indicator and appends the
error node as the last child, creating nothing else. -/
theorem failed_request_shows_error (cmp : Nat → JSON → Bool) (w : Widget) (o : Outcome)
    (hq : trim w.inputValue ≠ []) (ho : o.failed = true) :
    (settle cmp (submit w) w.inFlight.length o).indicatorDisplay = lit "none" ∧
    (settle cmp (submit w) w.inFlight.length o).heap
      = w.heap ++ [questionDiv (trim w.inputValue), errorDiv] ∧
    (settle cmp (submit w) w.inFlight.length o).chatBox
      = [w.heap.length, w.heap.length + 1] ∧
    (settle cmp (submit w) w.inFlight.length o).chatBox.getLast?
      = some (w.heap.length + 1) ∧
    contentOf (settle cmp (submit w) w.inFlight.length o) (w.heap.length + 1) = errorText ∧
    (settle cmp (submit w) w.inFlight.length o).inFlight = w.inFlight ∧
    (settle cmp (submit w) w.inFlight.length o).timers = w.timers ∧
    (∀ (v : Widget) (k : Nat), k < v.inFlight.length →
      (settle cmp v k o).indicatorDisplay = lit "none" ∧
      (settle cmp v k o).heap = v.heap ++ [errorDiv] ∧
      (settle cmp v k o).chatBox = v.chatBox ++ [v.heap.length] ∧
      (settle cmp v k o).timers = v.timers) := by
  have hfinal : ∃ sent, settle cmp (submit w) w.inFlight.length o
      = step6 (catchBlock { asked w (trim w.inputValue) with sent := sent }) := by
    cases henc : encodeURIComponent (trim w.inputValue) with
    | none =>
      rw [submit_malformed w hq henc]
      exact ⟨w.sent, settle_out_of_range cmp _ _ o (Nat.le_refl _)⟩
    | some enc =>
      rw [submit_encoded w enc hq henc, settle_failed cmp _ _ o (by simp [posted]) ho]
      exact ⟨w.sent ++ [request enc], by simp [posted, asked, eraseIdx_concat_length]⟩
  obtain ⟨sent, hfinal⟩ := hfinal
  rw [hfinal]
  have hlast : (w.heap ++ [questionDiv (trim w.inputValue), errorDiv])[w.heap.length + 1]?
      = some errorDiv := by
    rw [List.getElem?_append_right (by omega)]
    simp
  refine ⟨rfl, ?_, ?_, ?_, ?_, rfl, rfl, ?_⟩
  · simp [step6, catchBlock, appendChild, asked]
  · simp [step6, catchBlock, appendChild, asked]
  · simp [step6, catchBlock, appendChild, asked]
  · have hheap : (step6 (catchBlock
        { asked w (trim w.inputValue) with sent := sent })).heap
        = w.heap ++ [questionDiv (trim w.inputValue), errorDiv] := by
      simp [step6, catchBlock, appendChild, asked]
    unfold contentOf
    rw [hheap, hlast]
    rfl
  · intro v k hk
    rw [settle_failed cmp v k o hk ho]
    exact ⟨rfl, rfl, rfl, rfl⟩

/-- C8 at the question "hi" and a rejected `fetch`. -/
theorem failed_request_shows_error_witness :
    shown (settle neverLess waiting 0 .rejected)
      = [lit "<strong>Q:</strong> hi", lit "❌ Error: Could not connect to server."] ∧
    (settle neverLess waiting 0 .rejected).indicatorDisplay = lit "none" ∧
    (settle neverLess (submit { blank with inputValue := lit "hi" }) 0 .rejected).chatBox
      = [0, 1] :=
  ⟨by decide, by decide,
   (failed_request_shows_error neverLess { blank with inputValue := lit "hi" } .rejected
      (by decide) rfl).2.2.1⟩

theorem orFallback_str_ne_nil (v : Option JSON) (s : JSString)
    (h : orFallback v = .str s) : s ≠ [] := by
  cases v with
  | none =>
    have e : s = fallbackText := by
      simp [orFallback] at h
      exact h.symm
    rw [e]
    exact fallbackText_ne_nil
  | some a =>
    by_cases ht : truthy (some a) = true
    · simp only [orFallback, ht, if_true] at h
      subst h
      intro hs
      subst hs
      simp [truthy] at ht
    · have e : s = fallbackText := by
        simp [orFallback, ht] at h
        exact h.symm
      rw [e]
      exact fallbackText_ne_nil

theorem typeBody_of_not_str (cmp : Nat → JSON → Bool) (text : JSON) (i : Nat)
    (c : JSString) (h : ∀ s, text ≠ .str s) :
    typeBody cmp text i c = .resolved ∨ typeBody cmp text i c = .threw := by
  cases text with
  | str s => exact absurd rfl (h s)
  | null => simp [typeBody]
  | bool b => simp [typeBody]
  | num n => simp [typeBody]
  | arr items =>
    simp only [typeBody]
    split <;> simp
  | obj members =>
    simp only [typeBody]
    split
    · simp
    · simp
    · split <;> simp
    · split <;> simp
    · split <;> simp

theorem onData_not_str (cmp : Nat → JSON → Bool) (w : Widget) (data : JSON)
    (v : Option JSON) (hv : getAnswer data = some v) (h : ∀ s, orFallback v ≠ .str s) :
    Ended w (onData cmp w data) := by
  have hc : contentOf
      (setContent (appendChild { w with indicatorDisplay := lit "none" } answerDiv)
        w.heap.length []) w.heap.length = [] :=
    contentOf_setContent _ _ _ (by simp [appendChild])
  simp only [onData, hv, typeWriter, type, hc]
  rcases typeBody_of_not_str cmp (orFallback v) 0 [] h with hr | hr <;> rw [hr] <;>
    exact ⟨rfl, rfl, rfl, rfl⟩

/-- Every request in flight leads its handler to the end: after the outcome
and finitely many callbacks the control is enabled and labelled "Ask". -/
theorem cycle_ends (cmp : Nat → JSON → Bool) (w : Widget) (k : Nat) (o : Outcome)
    (hk : k < w.inFlight.length) :
    ∃ n, Ended { w with inFlight := w.inFlight.eraseIdx k }
      (ticks cmp w.timers.length n (settle cmp w k o)) := by
  cases o with
  | rejected => exact ⟨0, by simp [ticks, settle, hk, Ended, step6, catchBlock, appendChild]⟩
  | response status body =>
    cases body with
    | none => exact ⟨0, by simp [ticks, settle, hk, Ended, step6, catchBlock, appendChild]⟩
    | some data =>
      cases hv : getAnswer data with
      | none =>
        exact ⟨0, by simp [ticks, settle, hk, onData, hv, Ended, step6, catchBlock, appendChild]⟩
      | some v =>
        by_cases hstr : ∃ s, orFallback v = .str s
        · obtain ⟨s, hs⟩ := hstr
          refine ⟨s.length, ?_⟩
          rw [reveal_completes cmp w k status data v s hk hv hs (orFallback_str_ne_nil v s hs)]
          exact ⟨rfl, rfl, rfl, rfl⟩
        · refine ⟨0, ?_⟩
          have h := onData_not_str cmp { w with inFlight := w.inFlight.eraseIdx k } data v hv
            (fun s hs => hstr ⟨s, hs⟩)
          simpa [ticks, settle, hk] using h

/-- C4: for a non-empty trimmed question and every outcome of its request
(rejection, a body that does not parse, a body of any JSON value), the cycle
comes to its end after the outcome and finitely many callbacks, and at its end
the submit control is enabled and labelled "Ask"; nothing of the cycle is left
pending.  While the request is in flight the control is disabled. -/
theorem cycle_reenables_submit (cmp : Nat → JSON → Bool) (w : Widget) (o : Outcome)
    (hq : trim w.inputValue ≠ []) :
    (∃ n,
      (ticks cmp w.timers.length n
        (settle cmp (submit w) w.inFlight.length o)).btnDisabled = false ∧
      (ticks cmp w.timers.length n
        (settle cmp (submit w) w.inFlight.length o)).btnText = lit "Ask" ∧
      (ticks cmp w.timers.length n
        (settle cmp (submit w) w.inFlight.length o)).inFlight = w.inFlight ∧
      (ticks cmp w.timers.length n
        (settle cmp (submit w) w.inFlight.length o)).timers = w.timers) ∧
    (isWellFormed (trim w.inputValue) = true →
      (submit w).btnDisabled = true ∧ (submit w).btnText = lit "Thinking..." ∧
      (submit w).inFlight.length = w.inFlight.length + 1) := by
  constructor
  · cases henc : encodeURIComponent (trim w.inputValue) with
    | none =>
      have e : settle cmp (step6 (catchBlock (asked w (trim w.inputValue))))
          w.inFlight.length o = step6 (catchBlock (asked w (trim w.inputValue))) :=
        settle_out_of_range cmp _ _ o (Nat.le_refl w.inFlight.length)
      refine ⟨0, ?_⟩
      rw [submit_malformed w hq henc, e]
      exact ⟨rfl, rfl, rfl, rfl⟩
    | some enc =>
      rw [submit_encoded w enc hq henc]
      have hk : w.inFlight.length < (posted w (trim w.inputValue) enc).inFlight.length := by
        simp [posted]
      obtain ⟨n, h1, h2, h3, h4⟩ :=
        cycle_ends cmp (posted w (trim w.inputValue) enc) w.inFlight.length o hk
      exact ⟨n, h1, h2, h3.trans (eraseIdx_concat_length _ _), h4⟩
  · intro hwf
    have hsome := encode_isSome (trim w.inputValue)
    rw [hwf] at hsome
    obtain ⟨enc, henc⟩ := Option.isSome_iff_exists.mp hsome
    rw [submit_encoded w enc hq henc]
    simp [posted]

/-- C4 at the question "hi" answered with the body `{"answer": [1]}`, on which
the reveal throws: the cycle ends at once with the control enabled. -/
theorem cycle_reenables_submit_witness :
    ∃ n,
      (ticks neverLess 0 n (settle neverLess (submit { blank with inputValue := lit "hi" }) 0
        (.response 200 (some (.obj [(lit "answer", .arr [.num 1])]))))).btnDisabled = false :=
  have h := (cycle_reenables_submit neverLess { blank with inputValue := lit "hi" }
    (.response 200 (some (.obj [(lit "answer", .arr [.num 1])]))) (by decide)).1
  h.elim fun n hn => ⟨n, hn.1⟩

/-! ## What the display area holds -/

theorem assign_getElem?_tag (heap : List Elem) (h : Nat) (c : JSString) (j : Nat) :
    ((assign heap h c)[j]?).map tag = (heap[j]?).map tag := by
  unfold assign
  cases hg : heap[h]? with
  | none => rfl
  | some e =>
    have hlt : h < heap.length := (List.getElem?_eq_some_iff.mp hg).1
    by_cases hj : h = j
    · subst hj
      simp [List.getElem?_set, hlt, hg, tag]
    · simp [List.getElem?_set, hj]

theorem kindsOf_assign (heap : List Elem) (h : Nat) (c : JSString) (children : List Nat) :
    kindsOf (assign heap h c) children = kindsOf heap children := by
  unfold kindsOf
  exact List.map_congr_left fun j _ => assign_getElem?_tag heap h c j

theorem kindsOf_append (heap extra : List Elem) (children : List Nat)
    (ht : Tidy heap children) :
    kindsOf (heap ++ extra) children = kindsOf heap children := by
  unfold kindsOf
  refine List.map_congr_left fun j hj => ?_
  rw [List.getElem?_append_left (ht j hj)]

theorem kindsOf_concat (heap : List Elem) (e : Elem) (children : List Nat)
    (ht : Tidy heap children) :
    kindsOf (heap ++ [e]) (children ++ [heap.length])
      = kindsOf heap children ++ [some (tag e)] := by
  have h1 := kindsOf_append heap [e] children ht
  unfold kindsOf at h1 ⊢
  rw [List.map_append, h1]
  simp

theorem Tidy_concat (heap : List Elem) (e : Elem) (children : List Nat)
    (ht : Tidy heap children) : Tidy (heap ++ [e]) (children ++ [heap.length]) := by
  intro h hh
  rcases List.mem_append.mp hh with hm | hm
  · have := ht h hm
    simp
    omega
  · simp at hm
    subst hm
    simp

theorem Tidy_assign (heap : List Elem) (h : Nat) (c : JSString) (children : List Nat)
    (ht : Tidy heap children) : Tidy (assign heap h c) children := by
  intro j hj
  rw [assign_length]
  exact ht j hj

theorem catchBlock_effect (w : Widget) (ht : Tidy w.heap w.chatBox) :
    Tidy (catchBlock w).heap (catchBlock w).chatBox ∧
    kinds (catchBlock w) = kinds w ++ [some (answerClass, errorColor)] :=
  ⟨Tidy_concat w.heap errorDiv w.chatBox ht, kindsOf_concat w.heap errorDiv w.chatBox ht⟩

theorem onData_effect (cmp : Nat → JSON → Bool) (w : Widget) (data : JSON)
    (ht : Tidy w.heap w.chatBox) :
    Tidy (onData cmp w data).heap (onData cmp w data).chatBox ∧
    (onData cmp w data).inFlight = w.inFlight ∧
    (kinds (onData cmp w data) = kinds w ++ [some (answerClass, errorColor)] ∨
     kinds (onData cmp w data) = kinds w ++ [some (answerClass, [])] ∨
     (kinds (onData cmp w data)
        = kinds w ++ [some (answerClass, []), some (answerClass, errorColor)] ∧
      ∃ v, getAnswer data = some v ∧ throwsAtOnce cmp (orFallback v) = true)) := by
  cases hv : getAnswer data with
  | none =>
    have h := catchBlock_effect w ht
    simp only [onData, hv]
    exact ⟨h.1, rfl, Or.inl h.2⟩
  | some v =>
    have hc : contentOf
        (setContent (appendChild { w with indicatorDisplay := lit "none" } answerDiv)
          w.heap.length []) w.heap.length = [] :=
      contentOf_setContent _ _ _ (by simp [appendChild])
    have ht1 : Tidy (assign (w.heap ++ [answerDiv]) w.heap.length [])
        (w.chatBox ++ [w.heap.length]) :=
      Tidy_assign _ _ _ _ (Tidy_concat w.heap answerDiv w.chatBox ht)
    have hk1 : kindsOf (assign (w.heap ++ [answerDiv]) w.heap.length [])
        (w.chatBox ++ [w.heap.length]) = kinds w ++ [some (answerClass, [])] := by
      rw [kindsOf_assign]
      exact kindsOf_concat w.heap answerDiv w.chatBox ht
    simp only [onData, hv, typeWriter, type, hc]
    cases hr : typeBody cmp (orFallback v) 0 [] with
    | appended c =>
      refine ⟨Tidy_assign _ _ _ _ ht1, rfl, Or.inr (Or.inl ?_)⟩
      have e := kindsOf_assign (assign (w.heap ++ [answerDiv]) w.heap.length [])
        w.heap.length c (w.chatBox ++ [w.heap.length])
      exact e.trans hk1
    | resolved => exact ⟨ht1, rfl, Or.inr (Or.inl hk1)⟩
    | threw =>
      refine ⟨Tidy_concat _ errorDiv _ ht1, rfl, Or.inr (Or.inr ⟨?_, v, rfl, ?_⟩)⟩
      · have e := kindsOf_concat _ errorDiv _ ht1
        have e2 : kinds w ++ [some (answerClass, []), some (answerClass, errorColor)]
            = (kinds w ++ [some (answerClass, [])]) ++ [some (tag errorDiv)] := by
          simp [tag, errorDiv]
        rw [e2, ← hk1]
        exact e
      · simp [throwsAtOnce, hr]

theorem settle_effect (cmp : Nat → JSON → Bool) (w : Widget) (k : Nat) (o : Outcome)
    (ht : Tidy w.heap w.chatBox) (hk : k < w.inFlight.length) :
    Tidy (settle cmp w k o).heap (settle cmp w k o).chatBox ∧
    (settle cmp w k o).inFlight = w.inFlight.eraseIdx k ∧
    (kinds (settle cmp w k o) = kinds w ++ [some (answerClass, errorColor)] ∨
     kinds (settle cmp w k o) = kinds w ++ [some (answerClass, [])] ∨
     (kinds (settle cmp w k o)
        = kinds w ++ [some (answerClass, []), some (answerClass, errorColor)] ∧
      admissible cmp w (.settle k o) = false)) := by
  by_cases ho : o.failed = true
  · rw [settle_failed cmp w k o hk ho]
    have h := catchBlock_effect { w with inFlight := w.inFlight.eraseIdx k } ht
    exact ⟨h.1, rfl, Or.inl h.2⟩
  · cases o with
    | rejected => exact absurd rfl ho
    | response status body =>
      cases body with
      | none => exact absurd rfl ho
      | some data =>
        have h := onData_effect cmp { w with inFlight := w.inFlight.eraseIdx k } data ht
        have e : settle cmp w k (.response status (some data))
            = onData cmp { w with inFlight := w.inFlight.eraseIdx k } data := by
          simp [settle, hk]
        rw [e]
        refine ⟨h.1, h.2.1, ?_⟩
        rcases h.2.2 with h3 | h3 | ⟨h3, v, hv, hthrow⟩
        · exact Or.inl h3
        · exact Or.inr (Or.inl h3)
        · exact Or.inr (Or.inr ⟨h3, by simp [admissible, hv, hthrow]⟩)

theorem settle_idle (cmp : Nat → JSON → Bool) (w : Widget) (k : Nat) (o : Outcome)
    (hk : ¬ k < w.inFlight.length) : settle cmp w k o = w := by
  simp [settle, hk]

theorem tick_effect (cmp : Nat → JSON → Bool) (w : Widget) (k : Nat)
    (ht : Tidy w.heap w.chatBox) :
    Tidy (tick cmp w k).heap (tick cmp w k).chatBox ∧
    kinds (tick cmp w k) = kinds w ∧ (tick cmp w k).inFlight = w.inFlight := by
  unfold tick
  cases hg : w.timers[k]? with
  | none => exact ⟨ht, rfl, rfl⟩
  | some t =>
    simp only [type]
    cases hr : typeBody cmp t.text t.i
        (contentOf { w with timers := w.timers.eraseIdx k } t.element) with
    | appended c =>
      exact ⟨Tidy_assign _ _ _ _ ht, kindsOf_assign _ _ _ _, rfl⟩
    | resolved => exact ⟨ht, rfl, rfl⟩
    | threw => exact ⟨ht, rfl, rfl⟩

theorem submit_effect (w : Widget) (hq : trim w.inputValue ≠ []) :
    Tidy (submit w).heap (submit w).chatBox ∧
    (submit w).chatBox.head? = some w.heap.length ∧
    (∀ h ∈ (submit w).chatBox, w.heap.length ≤ h) ∧
    ((kinds (submit w) = [some (answerClass, questionColor)] ∧
        (submit w).inFlight.length = w.inFlight.length + 1) ∨
     (kinds (submit w)
        = [some (answerClass, questionColor), some (answerClass, errorColor)] ∧
        (submit w).inFlight = w.inFlight)) := by
  have hq0 : (w.heap ++ [questionDiv (trim w.inputValue)])[w.heap.length]?
      = some (questionDiv (trim w.inputValue)) := List.getElem?_concat_length _ _
  cases henc : encodeURIComponent (trim w.inputValue) with
  | none =>
    rw [submit_malformed w hq henc]
    have ht0 : Tidy (asked w (trim w.inputValue)).heap (asked w (trim w.inputValue)).chatBox := by
      intro h hh
      simp [asked] at hh
      subst hh
      simp [asked]
    have h := catchBlock_effect (asked w (trim w.inputValue)) ht0
    refine ⟨h.1, rfl, ?_, Or.inr ⟨?_, rfl⟩⟩
    · intro h hh
      simp [step6, catchBlock, appendChild, asked] at hh
      omega
    · have e : kinds (step6 (catchBlock (asked w (trim w.inputValue))))
          = kinds (catchBlock (asked w (trim w.inputValue))) := rfl
      rw [e, h.2]
      simp [kinds, kindsOf, asked, hq0, tag, questionDiv]
  | some enc =>
    rw [submit_encoded w enc hq henc]
    refine ⟨?_, rfl, ?_, Or.inl ⟨?_, ?_⟩⟩
    · intro h hh
      simp [posted] at hh
      subst hh
      simp [posted]
    · intro h hh
      simp [posted] at hh
      omega
    · simp [kinds, kindsOf, posted, hq0, tag, questionDiv]
    · simp [posted]

theorem questions_append_reply (w v : Widget)
    (h : kinds v = kinds w ++ [some (answerClass, errorColor)] ∨
      kinds v = kinds w ++ [some (answerClass, [])] ∨
      kinds v = kinds w ++ [some (answerClass, []), some (answerClass, errorColor)]) :
    questions v = questions w := by
  have h1 : (some (answerClass, errorColor) : Option (JSString × JSString))
      ≠ some (answerClass, questionColor) := by decide
  have h2 : (some (answerClass, []) : Option (JSString × JSString))
      ≠ some (answerClass, questionColor) := by decide
  have c1 : errorColor ≠ questionColor := by decide
  have c2 : questionColor ≠ [] := by decide
  unfold questions
  rcases h with h | h | h <;> rw [h, List.count_append] <;>
    simp [List.count_cons, h1, h2, c1, c2]

theorem step_questions (cmp : Nat → JSON → Bool) (w : Widget) (e : Event)
    (ht : Tidy w.heap w.chatBox) (hq : questions w ≤ 1) :
    Tidy (step cmp w e).heap (step cmp w e).chatBox ∧ questions (step cmp w e) ≤ 1 := by
  cases e with
  | input value => exact ⟨ht, hq⟩
  | submit =>
    by_cases hb : trim w.inputValue = []
    · rw [show step cmp w .submit = w from submit_blank w hb]
      exact ⟨ht, hq⟩
    · have h := submit_effect w hb
      refine ⟨h.1, ?_⟩
      have e : questions (step cmp w .submit) = 1 := by
        change questions (submit w) = 1
        unfold questions
        rcases h.2.2.2 with ⟨hk, _⟩ | ⟨hk, _⟩ <;> rw [hk] <;> decide
      omega
  | settle k o =>
    by_cases hk : k < w.inFlight.length
    · have h := settle_effect cmp w k o ht hk
      refine ⟨h.1, ?_⟩
      have e : questions (settle cmp w k o) = questions w :=
        questions_append_reply w _ (by
          rcases h.2.2 with h3 | h3 | h3
          · exact Or.inl h3
          · exact Or.inr (Or.inl h3)
          · exact Or.inr (Or.inr h3.1))
      change questions (settle cmp w k o) ≤ 1
      omega
    · rw [show step cmp w (.settle k o) = w from settle_idle cmp w k o hk]
      exact ⟨ht, hq⟩
  | tick k =>
    have h := tick_effect cmp w k ht
    refine ⟨h.1, ?_⟩
    change questions (tick cmp w k) ≤ 1
    unfold questions at hq ⊢
    rw [h.2.1]
    exact hq

theorem run_questions (cmp : Nat → JSON → Bool) (events : List Event) :
    ∀ w : Widget, Tidy w.heap w.chatBox → questions w ≤ 1 →
      questions (run cmp w events) ≤ 1 := by
  induction events with
  | nil => intro w _ hq; exact hq
  | cons e es ih =>
    intro w ht hq
    have h := step_questions cmp w e ht hq
    exact ih (step cmp w e) h.1 h.2

theorem step_replies (cmp : Nat → JSON → Bool) (w : Widget) (e : Event)
    (ht : Tidy w.heap w.chatBox) (hr : replies w + w.inFlight.length ≤ 1)
    (ha : admissible cmp w e = true) :
    Tidy (step cmp w e).heap (step cmp w e).chatBox ∧
    replies (step cmp w e) + (step cmp w e).inFlight.length ≤ 1 := by
  cases e with
  | input value => exact ⟨ht, hr⟩
  | submit =>
    by_cases hb : trim w.inputValue = []
    · rw [show step cmp w .submit = w from submit_blank w hb]
      exact ⟨ht, hr⟩
    · have h := submit_effect w hb
      refine ⟨h.1, ?_⟩
      have hidle : w.inFlight = [] := by
        simp [admissible, hb] at ha
        exact ha
      change replies (submit w) + (submit w).inFlight.length ≤ 1
      rcases h.2.2.2 with ⟨hk, hl⟩ | ⟨hk, hl⟩
      · have e : replies (submit w) = 0 := by
          unfold replies
          rw [hk]
          decide
        rw [e, hl, hidle]
        simp
      · have e : replies (submit w) = 1 := by
          unfold replies
          rw [hk]
          decide
        rw [e, hl, hidle]
        simp
  | settle k o =>
    by_cases hk : k < w.inFlight.length
    · have h := settle_effect cmp w k o ht hk
      refine ⟨h.1, ?_⟩
      change replies (settle cmp w k o) + (settle cmp w k o).inFlight.length ≤ 1
      have hlen : (settle cmp w k o).inFlight.length = w.inFlight.length - 1 := by
        rw [h.2.1, List.length_eraseIdx]
        simp [hk]
      have e : replies (settle cmp w k o) = replies w + 1 := by
        unfold replies
        have c3 : errorColor ≠ [] := by decide
        rcases h.2.2 with h3 | h3 | h3
        · rw [h3, List.count_append, List.count_append]
          simp [List.count_cons, c3]
          omega
        · rw [h3, List.count_append, List.count_append]
          simp [List.count_cons, c3, c3.symm]
          omega
        · rw [ha] at h3
          exact absurd h3.2 (by simp)
      omega
    · rw [show step cmp w (.settle k o) = w from settle_idle cmp w k o hk]
      exact ⟨ht, hr⟩
  | tick k =>
    have h := tick_effect cmp w k ht
    refine ⟨h.1, ?_⟩
    change replies (tick cmp w k) + (tick cmp w k).inFlight.length ≤ 1
    unfold replies at hr ⊢
    rw [h.2.1, h.2.2]
    exact hr

theorem run_replies (cmp : Nat → JSON → Bool) (events : List Event) :
    ∀ w : Widget, Tidy w.heap w.chatBox → replies w + w.inFlight.length ≤ 1 →
      sequential cmp w events = true → replies (run cmp w events) ≤ 1 := by
  induction events with
  | nil => intro w _ hr _; simp only [run, List.foldl_nil]; omega
  | cons e es ih =>
    intro w ht hr hs
    simp only [sequential, Bool.and_eq_true] at hs
    have h := step_replies cmp w e ht hr hs.1
    exact ih (step cmp w e) h.1 h.2 hs.2

/-- C9 fails in three ways.  An array answer leaves an empty answer node and,
the reveal having thrown, an error node after it.  Two overlapping cycles
leave two answer nodes after the one question.  A submit of an unpaired
surrogate leaves the question node and an error node at once. -/
theorem display_can_hold_two_replies :
    shown (run neverLess blank arrayAnswer)
      = [lit "<strong>Q:</strong> hi", [], errorText] ∧
    replies (run neverLess blank arrayAnswer) = 2 ∧
    questions (run neverLess blank overlapping) = 1 ∧
    replies (run neverLess blank overlapping) = 2 ∧
    (submit typedSurrogate).chatBox = [0, 1] := by
  decide

/-- C9, amended: in every state reached by any sequence of edits, submits,
outcomes and callbacks the display area holds at most one question node.  It
holds at most one answer or error node along every sequence in which no
question is submitted while a request is in flight and no answer makes the
reveal throw.  After a non-empty submit the first child of the display area is
the new question node and nothing held before is left; for a well formed
question it is the only child. -/
theorem display_holds_one_pair (cmp : Nat → JSON → Bool) (w : Widget) (events : List Event)
    (ht : Tidy w.heap w.chatBox) (hq : questions w ≤ 1) :
    questions (run cmp w events) ≤ 1 ∧
    (replies w + w.inFlight.length ≤ 1 → sequential cmp w events = true →
      replies (run cmp w events) ≤ 1) ∧
    (∀ v : Widget, trim v.inputValue ≠ [] →
      (submit v).chatBox.head? = some v.heap.length ∧
      (∀ h ∈ (submit v).chatBox, v.heap.length ≤ h) ∧
      questions (submit v) = 1 ∧
      (isWellFormed (trim v.inputValue) = true →
        (submit v).chatBox = [v.heap.length] ∧
        contentOf (submit v) v.heap.length
          = lit "<strong>Q:</strong> " ++ trim v.inputValue)) := by
  refine ⟨run_questions cmp events w ht hq, run_replies cmp events w ht, ?_⟩
  intro v hv
  have h := submit_effect v hv
  refine ⟨h.2.1, h.2.2.1, ?_, ?_⟩
  · unfold questions
    rcases h.2.2.2 with ⟨hk, _⟩ | ⟨hk, _⟩ <;> rw [hk] <;> decide
  · intro hwf
    have hsome := encode_isSome (trim v.inputValue)
    rw [hwf] at hsome
    obtain ⟨enc, henc⟩ := Option.isSome_iff_exists.mp hsome
    rw [submit_encoded v enc hv henc]
    refine ⟨rfl, ?_⟩
    simp [contentOf, posted, questionDiv]

/-- C9, amended, on the blank page and the events of one whole cycle. -/
theorem display_holds_one_pair_witness :
    questions (run neverLess blank serverError) ≤ 1 ∧
    replies (run neverLess blank serverError) ≤ 1 :=
  have h := display_holds_one_pair neverLess blank serverError
    (by intro h hh; cases hh) (by decide)
  ⟨h.1, h.2.1 (by decide) (by decide)⟩

end ChatWidget
